import Mathlib

/-!
Shallow embedding of the Negotiation-Training-System repository
(source files: emotion_engine.py — the WebSocket dispatcher and
environment/item handlers — and logger.py — the concession store,
price derivation and turn-record builder).

JSON values exchanged over the socket and stored in the coordination
files are modelled by an inductive `JVal`; Python coercions (`float`,
`str.strip`, truthiness, `dict.get`, `x or y`) are modelled explicitly
so that the handlers can be translated statement by statement.
-/

namespace Negotiation

/-- JSON values as produced by `json.loads`. Numbers are modelled as
rationals (Python ints and floats are not distinguished). -/
inductive JVal where
  | null : JVal
  | bool : Bool → JVal
  | num  : ℚ → JVal
  | str  : String → JVal
  | arr  : List JVal → JVal
  | obj  : List (String × JVal) → JVal

/-- Python truthiness of a JSON value (`if x:` / `x or y`). -/
def truthy : JVal → Bool
  | .null => false
  | .bool b => b
  | .num q => decide (q ≠ 0)
  | .str s => decide (s ≠ "")
  | .arr xs => !xs.isEmpty
  | .obj kvs => !kvs.isEmpty

/-- Model of `data.get(k)` on a JSON object: the stored value, or `None` when
the key is absent. -/
def jget (data : List (String × JVal)) (k : String) : JVal :=
  match data.lookup k with
  | some v => v
  | none => .null

/-- Python `a or b`. -/
def pyOr (a b : JVal) : JVal := if truthy a then a else b

/-- Digit-string value; `none` when a non-digit occurs. -/
def digitsVal (cs : List Char) : Option ℕ :=
  cs.foldl
    (fun acc c =>
      match acc with
      | none => none
      | some n => if c.isDigit then some (10 * n + (c.toNat - 48)) else none)
    (some 0)

/-- Non-empty all-digit parse. -/
def parseDigits (cs : List Char) : Option ℕ :=
  if cs = [] then none else digitsVal cs

/-- Split a character list at the first dot. -/
def splitAtDot : List Char → List Char × Option (List Char)
  | [] => ([], none)
  | c :: cs =>
      if c = '.' then ([], some cs)
      else
        let r := splitAtDot cs
        (c :: r.1, r.2)

/-- Unsigned decimal literal (`"12"`, `"12.5"`, `".5"`, `"5."`). -/
def parseUnsignedDecimal (cs : List Char) : Option ℚ :=
  match splitAtDot cs with
  | (ip, none) => (parseDigits ip).map (fun n => (n : ℚ))
  | (ip, some fp) =>
      if ip = [] ∧ fp = [] then none
      else
        match (if ip = [] then some 0 else parseDigits ip),
              (if fp = [] then some 0 else parseDigits fp) with
        | some n, some m => some ((n : ℚ) + (m : ℚ) / ((10 : ℚ) ^ fp.length))
        | _, _ => none

/-- Leading- and trailing-whitespace removal, the effect of Python
`str.strip()` with no arguments. -/
def trimChars (cs : List Char) : List Char :=
  ((cs.dropWhile Char.isWhitespace).reverse.dropWhile Char.isWhitespace).reverse

/-- Python `s.strip()` on a string. -/
def pyTrim (s : String) : String := String.mk (trimChars s.data)

/-- Model of Python `float(s)` on a string: whitespace is stripped and a
signed decimal literal is parsed. (Exotic forms — exponents, inf, nan —
are not exercised by this protocol and are treated as failures.) -/
def pyFloatOfString (s : String) : Option ℚ :=
  match (pyTrim s).toList with
  | '-' :: rest => (parseUnsignedDecimal rest).map (fun q => -q)
  | '+' :: rest => parseUnsignedDecimal rest
  | cs => parseUnsignedDecimal cs

/-- Model of Python `float(v)`: numbers pass through, booleans become
0/1, numeric strings parse, everything else raises. -/
def pyFloat : JVal → Except Unit ℚ
  | .num q => .ok q
  | .bool b => .ok (if b then 1 else 0)
  | .str s =>
      match pyFloatOfString s with
      | some q => .ok q
      | none => .error ()
  | _ => .error ()

/-- Model of Python `v.strip()`: defined on strings, raises otherwise. -/
def pyStrip : JVal → Except Unit String
  | .str s => .ok (pyTrim s)
  | _ => .error ()

/-- Model of Python `str(v)` as used on the itemId field. Exact on
strings, `None` and booleans; numeric and container representations are
schematic (the protocol only exercises string identifiers here). -/
def pyStr : JVal → String
  | .str s => s
  | .null => "None"
  | .bool b => if b then "True" else "False"
  | .num q => toString q.num
  | .arr _ => "<arr>"
  | .obj _ => "<obj>"

/-- Check `isinstance(v, (int, float))` followed by `float(v)`; note that a
Python bool is an int. -/
def asPyNumber : JVal → Option ℚ
  | .num q => some q
  | .bool b => some (if b then 1 else 0)
  | _ => none

/-! ## Environment state (emotion_engine.py, class EnvironmentState) -/

/-- The five environment dials. `time_pressure` is written only by the
backend, never by a client message. -/
structure EnvironmentState where
  noise_level : ℤ
  crowd_density : ℤ
  lighting_level : ℤ
  visual_distractions : ℤ
  time_pressure : ℤ
  deriving DecidableEq, Repr

/-- Session start: all-zero dials. -/
def envInit : EnvironmentState :=
  { noise_level := 0, crowd_density := 0, lighting_level := 0,
    visual_distractions := 0, time_pressure := 0 }

/-- Conversion `int(max(0, min(10, v)))`: defined on numbers (truncation of a
non-negative value is the floor) and booleans; raises otherwise. -/
def clampDial : JVal → Except Unit ℤ
  | .num q => .ok ⌊max 0 (min 10 q)⌋
  | .bool b => .ok (if b then 1 else 0)
  | _ => .error ()

/-- One `if key in data: self.f = int(max(0, min(10, data[key])))` step.
Returns the (possibly partially) updated state and whether the
conversion raised. -/
def applyDial (data : List (String × JVal)) (key : String)
    (st : EnvironmentState) (set : EnvironmentState → ℤ → EnvironmentState) :
    EnvironmentState × Bool :=
  match data.lookup key with
  | none => (st, false)
  | some v =>
      match clampDial v with
      | .ok n => (set st n, false)
      | .error _ => (st, true)

/-- Assignment `self.noise_level = n`. -/
def setNoise (s : EnvironmentState) (n : ℤ) : EnvironmentState :=
  { s with noise_level := n }

/-- Assignment `self.crowd_density = n`. -/
def setCrowd (s : EnvironmentState) (n : ℤ) : EnvironmentState :=
  { s with crowd_density := n }

/-- Assignment `self.lighting_level = n`. -/
def setLight (s : EnvironmentState) (n : ℤ) : EnvironmentState :=
  { s with lighting_level := n }

/-- Assignment `self.visual_distractions = n`. -/
def setVis (s : EnvironmentState) (n : ℤ) : EnvironmentState :=
  { s with visual_distractions := n }

/-- Method `EnvironmentState.update_from_dict`: the four client-settable dials,
applied in source order; a raise stops the remaining assignments but
keeps the ones already made (in-place mutation semantics). -/
def update_from_dict (st : EnvironmentState) (data : List (String × JVal)) :
    EnvironmentState × Bool :=
  let r1 := applyDial data "noise_level" st setNoise
  if r1.2 then r1 else
  let r2 := applyDial data "crowd_density" r1.1 setCrowd
  if r2.2 then r2 else
  let r3 := applyDial data "lighting_level" r2.1 setLight
  if r3.2 then r3 else
  applyDial data "visual_distractions" r3.1 setVis

/-! ## Coordination files and the concession store (logger.py) -/

/-- A durable file as seen by one read: absent, unreadable/invalid
JSON, or a parsed JSON document. -/
inductive FileState where
  | missing : FileState
  | corrupt : FileState
  | content : JVal → FileState

/-- Function `load_face_result`: the parsed result file, `None` on
FileNotFoundError and on any other read/parse failure. -/
def load_face_result : FileState → Option JVal
  | .missing => none
  | .corrupt => none
  | .content v => some v

/-- Function `_load_history_max_from_file`: return the in-memory cache when set;
otherwise read `history_max_concession` out of the meta file, keeping
it only when it is numeric (missing file, bad JSON, a non-object
document or a non-numeric value all yield an unset cache). -/
def load_history_max (cache : Option ℚ) (meta : FileState) : Option ℚ :=
  match cache with
  | some v => some v
  | none =>
      match meta with
      | .content (.obj kvs) =>
          match kvs.lookup "history_max_concession" with
          | some v => asPyNumber v
          | none => none
      | _ => none

/-- Function `_save_history_max_to_file`: overwrite the meta file with the
current cache. -/
def save_history_max (cache : Option ℚ) : FileState :=
  .content (.obj [("history_max_concession",
    match cache with
    | some q => .num q
    | none => .null)])

/-- log_turn step 3 (lines 193-196): fold one `final_concession` value
into the history maximum, persisting on every change. -/
def signalStep (hist : Option ℚ) (meta : FileState) (fc : JVal) :
    Option ℚ × FileState :=
  match asPyNumber fc with
  | none => (hist, meta)
  | some q =>
      match hist with
      | none => (some q, save_history_max (some q))
      | some h =>
          if q > h then (some q, save_history_max (some q)) else (some h, meta)

/-- Item context built by `handle_item_selected` (always a 4-field
dict, hence truthy). -/
structure ItemInfo where
  item_id : String
  item_name : String
  max_price : ℚ
  min_price : ℚ
  deriving DecidableEq, Repr

/-- log_turn step 4 (lines 202-217): concession amount and suggested
price from the item bounds and the current history maximum `p`. -/
def concession_and_price (item : ItemInfo) (p : ℚ) : ℚ × ℚ :=
  let gap0 := item.max_price - item.min_price
  let gap := if gap0 < 0 then (0 : ℚ) else gap0
  let ca := gap * (p / 100)
  let sp0 := item.max_price - ca
  (ca, if sp0 < item.min_price then item.min_price else sp0)

/-- Module-level mutable state of logger.py: the conversation history
and the cached history-max concession. -/
structure LoggerState where
  conversation_history : List String
  history_max_concession : Option ℚ
  deriving Repr

/-- One line of negotiation_log.jsonl as assembled by `log_turn`
(step 5); `final_concession` is the raw value from the face result
(Python `None` modelled as `JVal.null`). -/
structure TurnRecord where
  timestamp : String
  utterance : String
  history : List String
  environment : EnvironmentState
  item_info : Option ItemInfo
  face_result : Option JVal
  final_concession : JVal
  history_max_concession : Option ℚ
  concession_amount : Option ℚ
  suggested_price : Option ℚ

/-- Function `log_turn`: strip the utterance (empty → no record), append it to
the history, read the face result, fold a numeric `final_concession`
into the history maximum, derive the price when an item context is
present (the computation degrades to absent values when the history
maximum is still unset: `float(None)` raises inside the guarded
block), and assemble the record. Returns the new logger state, the new
meta file, and the record. -/
def log_turn (st : LoggerState) (metaFile faceFile : FileState)
    (ts utterance : String) (env : EnvironmentState)
    (item_info : Option ItemInfo) :
    LoggerState × FileState × Option TurnRecord :=
  let text := pyTrim utterance
  if text = "" then (st, metaFile, none)
  else
    let history := st.conversation_history ++ [text]
    let face_result := load_face_result faceFile
    let final_concession : JVal :=
      match face_result with
      | some (.obj kvs) => jget kvs "final_concession"
      | _ => .null
    let hist0 := load_history_max st.history_max_concession metaFile
    let hm := signalStep hist0 metaFile final_concession
    let prices : Option ℚ × Option ℚ :=
      match item_info, hm.1 with
      | some item, some p =>
          let cp := concession_and_price item p
          (some cp.1, some cp.2)
      | _, _ => (none, none)
    let record : TurnRecord :=
      { timestamp := ts, utterance := text, history := history,
        environment := env, item_info := item_info,
        face_result := face_result, final_concession := final_concession,
        history_max_concession := hm.1,
        concession_amount := prices.1, suggested_price := prices.2 }
    ({ conversation_history := history, history_max_concession := hm.1 },
     hm.2, some record)

/-- Function `reset_history_for_new_item`: clear the conversation history and
reset the history maximum to 0.0, persisting it. -/
def reset_history_for_new_item (_st : LoggerState) : LoggerState × FileState :=
  ({ conversation_history := [], history_max_concession := some 0 },
   save_history_max (some 0))

/-- Function `reset_history_max_concession` (client disconnect): reset the
history maximum to 0.0, persisting it; the conversation history is
kept. -/
def reset_history_max_concession (st : LoggerState) : LoggerState × FileState :=
  ({ st with history_max_concession := some 0 }, save_history_max (some 0))

/-! ## Dispatcher and handlers (emotion_engine.py) -/

/-- Process-global server state: environment dials, the dialogue-based
concession, the current item context, and logger.py's module state. -/
structure ServerState where
  env : EnvironmentState
  dialogue_concession : ℚ
  current_item_info : Option ItemInfo
  logger : LoggerState

/-- Process start. -/
def serverInit : ServerState :=
  { env := envInit, dialogue_concession := 0, current_item_info := none,
    logger := { conversation_history := [], history_max_concession := none } }

/-- An inbound frame: either not valid JSON, or a parsed JSON value. -/
inductive InMsg where
  | nonJson : InMsg
  | json : JVal → InMsg

/-- Outcome of handling one message: the new global state, the new meta
file, whether an exception escaped the handler (which terminates that
connection), and the turn record when one was built. -/
structure StepResult where
  state : ServerState
  metaFile : FileState
  raised : Bool
  record : Option TurnRecord

/-- Handler `handle_env_update`: apply the partial update to the dials; a
conversion error escapes the handler (nothing catches it) but the
fields already assigned stay mutated. -/
def handle_env_update (st : ServerState) (metaFile : FileState)
    (data : List (String × JVal)) : StepResult :=
  let r := update_from_dict st.env data
  { state := { st with env := r.1 }, metaFile := metaFile,
    raised := r.2, record := none }

/-- Handler `handle_user_utterance`: `(data.get("utterance") or "").strip()`
raises on a truthy non-string; an empty result is ignored; otherwise
`logger.log_turn` runs and then the dialogue concession is bumped by
5.0, capped at 50.0. -/
def handle_user_utterance (st : ServerState) (metaFile faceFile : FileState)
    (ts : String) (data : List (String × JVal)) : StepResult :=
  match pyStrip (pyOr (jget data "utterance") (.str "")) with
  | .error _ =>
      { state := st, metaFile := metaFile, raised := true, record := none }
  | .ok u =>
      if u = "" then
        { state := st, metaFile := metaFile, raised := false, record := none }
      else
        let r := log_turn st.logger metaFile faceFile ts u st.env
                   st.current_item_info
        let dc := min (st.dialogue_concession + 5) 50
        { state := { st with logger := r.1, dialogue_concession := dc },
          metaFile := r.2.1, raised := false, record := r.2.2 }

/-- The item-context construction in `handle_item_selected` (lines
197-202): `str`/`strip`/`float` coercions over the alternative field
spellings; note the `MinPrice` spelling on the fourth field. A raise
happens before the assignment to `current_item_info`. -/
def itemInfoFromMsg (data : List (String × JVal)) : Except Unit ItemInfo :=
  let idv := pyStr (pyOr (jget data "itemId")
               (pyOr (jget data "item_id") (.str "")))
  match pyStrip (pyOr (jget data "itemName")
          (pyOr (jget data "item_name") (.str ""))) with
  | .error e => .error e
  | .ok namev =>
      match pyFloat (pyOr (jget data "maxPrice")
              (pyOr (jget data "max_price") (.num 0))) with
      | .error e => .error e
      | .ok maxv =>
          match pyFloat (pyOr (jget data "MinPrice")
                  (pyOr (jget data "min_price") (.num 0))) with
          | .error e => .error e
          | .ok minv =>
              .ok { item_id := idv, item_name := namev, max_price := maxv,
                    min_price := minv }

/-- Handler `handle_item_selected`: build the new item context (a coercion
error escapes before any state change), then reset the logger history
for the new item. -/
def handle_item_selected (st : ServerState) (metaFile : FileState)
    (data : List (String × JVal)) : StepResult :=
  match itemInfoFromMsg data with
  | .error _ =>
      { state := st, metaFile := metaFile, raised := true, record := none }
  | .ok item =>
      let r := reset_history_for_new_item st.logger
      { state := { st with current_item_info := some item, logger := r.1 },
        metaFile := r.2, raised := false, record := none }

/-- Dispatcher `process_message`: non-JSON frames are logged and dropped;
`data.get("type")` raises on a non-object document; known types route
to their handlers and anything else is logged and dropped. -/
def process_message (st : ServerState) (metaFile faceFile : FileState)
    (ts : String) (msg : InMsg) : StepResult :=
  match msg with
  | .nonJson =>
      { state := st, metaFile := metaFile, raised := false, record := none }
  | .json v =>
      match v with
      | .obj data =>
          match jget data "type" with
          | .str t =>
              if t = "env_update" then handle_env_update st metaFile data
              else if t = "user_utterance" then
                handle_user_utterance st metaFile faceFile ts data
              else if t = "item_selected" then
                handle_item_selected st metaFile data
              else
                { state := st, metaFile := metaFile, raised := false,
                  record := none }
          | _ =>
              { state := st, metaFile := metaFile, raised := false,
                record := none }
      | _ =>
          { state := st, metaFile := metaFile, raised := true, record := none }

/-- One externally observable event of a server process: an inbound
frame (with the face-result file as the analysis worker last left it)
or a client disconnect (which triggers the global concession reset). -/
inductive Event where
  | msg : String → FileState → InMsg → Event
  | disconnect : Event

/-- Effect of one event on the global state and the meta file. A raise
only kills the one connection; the process and its global state live
on. -/
def runEvent (st : ServerState) (metaFile : FileState) (e : Event) :
    ServerState × FileState :=
  match e with
  | .msg ts face m =>
      let r := process_message st metaFile face ts m
      (r.state, r.metaFile)
  | .disconnect =>
      let r := reset_history_max_concession st.logger
      ({ st with logger := r.1 }, r.2)

/-- A whole process run: start from `serverInit` over an arbitrary
pre-existing meta file and process the events in order. -/
def runEvents (metaFile₀ : FileState) (evs : List Event) :
    ServerState × FileState :=
  evs.foldl (fun p e => runEvent p.1 p.2 e) (serverInit, metaFile₀)

/-- States a server process can actually be in. -/
def Reachable (st : ServerState) (metaFile : FileState) : Prop :=
  ∃ metaFile₀ evs, runEvents metaFile₀ evs = (st, metaFile)

/-- The price-derivation formula exactly as the specification states
it: `gap = max(0, maxPrice - minPrice)`, `concessionAmount = gap *
(historyMaxConcession / 100.0)`, `suggestedPrice = max(minPrice,
maxPrice - concessionAmount)`. -/
def specSuggestedPrice (maxPrice minPrice historyMaxConcession : ℚ) : ℚ :=
  let gap := max 0 (maxPrice - minPrice)
  let concessionAmount := gap * (historyMaxConcession / 100)
  max minPrice (maxPrice - concessionAmount)

/-! ## JSONL serialization of a turn record -/

/-- Method `EnvironmentState.to_dict`. -/
def envToJson (e : EnvironmentState) : JVal :=
  .obj [("noise_level", .num e.noise_level),
        ("crowd_density", .num e.crowd_density),
        ("lighting_level", .num e.lighting_level),
        ("visual_distractions", .num e.visual_distractions),
        ("time_pressure", .num e.time_pressure)]

/-- The item-context dict. -/
def itemToJson (it : ItemInfo) : JVal :=
  .obj [("item_id", .str it.item_id), ("item_name", .str it.item_name),
        ("max_price", .num it.max_price), ("min_price", .num it.min_price)]

/-- Optional number to JSON (`None` → null). -/
def optNum : Option ℚ → JVal
  | some q => .num q
  | none => .null

/-- Optional JSON value (`None` → null). -/
def optJson : Option JVal → JVal
  | some v => v
  | none => .null

/-- The JSONL object written (and returned) by `log_turn` step 5:
exactly these ten keys, in source order. -/
def turnRecordJson (r : TurnRecord) : List (String × JVal) :=
  [("timestamp", .str r.timestamp),
   ("utterance", .str r.utterance),
   ("history", .arr (r.history.map JVal.str)),
   ("environment", envToJson r.environment),
   ("item_info", optJson (r.item_info.map itemToJson)),
   ("face_result", optJson r.face_result),
   ("final_concession", r.final_concession),
   ("history_max_concession", optNum r.history_max_concession),
   ("concession_amount", optNum r.concession_amount),
   ("suggested_price", optNum r.suggested_price)]

/-! ## Reachability invariant: once an item context exists, the history
maximum is set and non-negative -/

/-- Whenever an item context is present, the cached history maximum is
a set, non-negative value (item selection resets it to 0 and external
signals only move it up). -/
def HistInv (st : ServerState) : Prop :=
  ∀ it, st.current_item_info = some it →
    ∃ v, st.logger.history_max_concession = some v ∧ 0 ≤ v

/-! ## Dialogue-concession accounting -/

/-- Events that bump the dialogue concession: a `user_utterance` frame
whose utterance survives the string coercion and strip with a
non-empty result. -/
def isUserTurn : Event → Bool
  | .msg _ _ (.json (.obj data)) =>
      match jget data "type" with
      | .str t =>
          if t = "user_utterance" then
            match pyStrip (pyOr (jget data "utterance") (.str "")) with
            | .ok u => if u = "" then false else true
            | .error _ => false
          else false
      | _ => false
  | _ => false

/-! ## Environment invariants -/

/-- All four client-settable dials are in [0, 10]. -/
def EnvInv (e : EnvironmentState) : Prop :=
  0 ≤ e.noise_level ∧ e.noise_level ≤ 10 ∧
  0 ≤ e.crowd_density ∧ e.crowd_density ≤ 10 ∧
  0 ≤ e.lighting_level ∧ e.lighting_level ≤ 10 ∧
  0 ≤ e.visual_distractions ∧ e.visual_distractions ≤ 10

/-- An environment state after any sequence of update payloads, from
session start. -/
def applyEnvUpdates (updates : List (List (String × JVal))) :
    EnvironmentState :=
  updates.foldl (fun s d => (update_from_dict s d).1) envInit

/-! ## Concrete runs used by witnesses and counterexamples -/

/-- An item-selection frame: apple, `maxPrice=100`, `MinPrice=20`. -/
def itemMsg₀ : InMsg := .json (.obj
  [("type", .str "item_selected"), ("itemId", .str "a"),
   ("itemName", .str "apple"), ("maxPrice", .num 100), ("MinPrice", .num 20)])

/-- Server state after processing `itemMsg₀` from a fresh start. -/
def run₀ : ServerState × FileState :=
  runEvents .missing [.msg "t1" .missing itemMsg₀]

/-- A face-result file reporting `final_concession = 25`. -/
def face₀ : FileState := .content (.obj [("final_concession", .num 25)])

/-- A user-utterance frame with text "hi". -/
def turnData₀ : List (String × JVal) :=
  [("type", .str "user_utterance"), ("utterance", .str "hi")]

/-- The turn: utterance "hi" against the apple item and `face₀`. -/
def turn₀ : StepResult :=
  handle_user_utterance run₀.1 run₀.2 face₀ "t2" turnData₀

/-- The record built on that turn. -/
def rec₀ : TurnRecord := turn₀.record.get (by rfl)

/-- An item-selection frame with inverted bounds: `maxPrice=10`,
`MinPrice=20`. -/
def itemMsg₁ : InMsg := .json (.obj
  [("type", .str "item_selected"), ("maxPrice", .num 10),
   ("MinPrice", .num 20)])

/-- Server state after selecting the inverted-bounds item. -/
def run₁ : ServerState × FileState :=
  runEvents .missing [.msg "t1" .missing itemMsg₁]

/-- A turn against the inverted-bounds item, no face result. -/
def turn₁ : StepResult :=
  handle_user_utterance run₁.1 run₁.2 .missing "t2" turnData₀

/-- The record built on that turn. -/
def rec₁ : TurnRecord := turn₁.record.get (by rfl)

/-! ## Basic lemmas -/

theorem if_lt_zero_eq_max (x : ℚ) : (if x < 0 then (0 : ℚ) else x) = max 0 x := by
  rcases lt_or_ge x 0 with h | h
  · rw [if_pos h, max_eq_left h.le]
  · rw [if_neg (not_lt.mpr h), max_eq_right h]

theorem if_lt_clamp_eq_max (m y : ℚ) : (if y < m then m else y) = max m y := by
  rcases lt_or_ge y m with h | h
  · rw [if_pos h, max_eq_left h.le]
  · rw [if_neg (not_lt.mpr h), max_eq_right h]

/-- The price computed by `log_turn` agrees with the specification's
closed formula. -/
theorem price_eq_spec (it : ItemInfo) (p : ℚ) :
    (concession_and_price it p).2
      = specSuggestedPrice it.max_price it.min_price p := by
  unfold concession_and_price specSuggestedPrice
  simp only [if_lt_zero_eq_max, if_lt_clamp_eq_max]

theorem spec_price_lower (maxP minP p : ℚ) :
    minP ≤ specSuggestedPrice maxP minP p := le_max_left _ _

theorem spec_price_upper (maxP minP p : ℚ) (h : minP ≤ maxP) (hp : 0 ≤ p) :
    specSuggestedPrice maxP minP p ≤ maxP := by
  unfold specSuggestedPrice
  refine max_le h ?_
  have hgap : 0 ≤ max 0 (maxP - minP) := le_max_left _ _
  have : 0 ≤ max 0 (maxP - minP) * (p / 100) := by positivity
  linarith

theorem spec_price_at_zero (maxP minP : ℚ) (h : minP ≤ maxP) :
    specSuggestedPrice maxP minP 0 = maxP := by
  unfold specSuggestedPrice
  simp [max_eq_right h]

theorem concession_at_neg_gap (it : ItemInfo) (p : ℚ)
    (h : it.max_price < it.min_price) :
    concession_and_price it p = (0, it.min_price) := by
  have h1 : it.max_price - it.min_price < 0 := by linarith
  simp only [concession_and_price]
  rw [if_pos h1]
  simp only [zero_mul, sub_zero]
  rw [if_pos h]

/-! ## Lemmas about the history-max update step -/

theorem signalStep_numeric (h q : ℚ) (m : FileState) (fc : JVal)
    (hfc : asPyNumber fc = some q) :
    (signalStep (some h) m fc).1 = some (max h q) := by
  simp only [signalStep, hfc]
  rcases lt_or_ge h q with hlt | hle
  · rw [if_pos hlt, max_eq_right hlt.le]
  · rw [if_neg (not_lt.mpr hle), max_eq_left hle]

theorem signalStep_unset (q : ℚ) (m : FileState) (fc : JVal)
    (hfc : asPyNumber fc = some q) :
    (signalStep none m fc).1 = some q := by
  simp only [signalStep, hfc]

theorem signalStep_nonNumeric (hist : Option ℚ) (m : FileState) (fc : JVal)
    (hfc : asPyNumber fc = none) :
    signalStep hist m fc = (hist, m) := by
  simp only [signalStep, hfc]

theorem signalStep_mono (h : ℚ) (m : FileState) (fc : JVal) :
    ∃ v, (signalStep (some h) m fc).1 = some v ∧ h ≤ v := by
  cases hfc : asPyNumber fc with
  | none => exact ⟨h, by rw [signalStep_nonNumeric _ _ _ hfc], le_refl h⟩
  | some q => exact ⟨max h q, signalStep_numeric h q m fc hfc, le_max_left h q⟩

/-- Folding any sequence of external signals into a set history maximum
never decreases it. -/
theorem signalFold_mono (sigs : List JVal) (p : Option ℚ × FileState) (v : ℚ)
    (hp : p.1 = some v) :
    ∃ v', (sigs.foldl (fun a fc => signalStep a.1 a.2 fc) p).1
            = some v' ∧ v ≤ v' := by
  induction sigs generalizing p v with
  | nil => exact ⟨v, hp, le_refl v⟩
  | cons fc sigs ih =>
      obtain ⟨w, hw, hvw⟩ := signalStep_mono v p.2 fc
      have hstep : (signalStep p.1 p.2 fc).1 = some w := by rw [hp]; exact hw
      obtain ⟨v', hv', hwv'⟩ := ih (signalStep p.1 p.2 fc) w hstep
      exact ⟨v', by simpa only [List.foldl_cons] using hv', hvw.trans hwv'⟩

theorem log_turn_hist_of_some (st : LoggerState) (meta face : FileState)
    (ts u : String) (env : EnvironmentState) (item : Option ItemInfo)
    (w : ℚ) (hw : st.history_max_concession = some w) :
    ∃ v, (log_turn st meta face ts u env item).1.history_max_concession
           = some v ∧ w ≤ v := by
  unfold log_turn
  by_cases he : pyTrim u = ""
  · rw [if_pos he]
    exact ⟨w, hw, le_refl w⟩
  · rw [if_neg he]
    simp only []
    have hload : load_history_max st.history_max_concession meta = some w := by
      rw [hw]
      rfl
    rw [hload]
    exact signalStep_mono w meta _

theorem serverInit_histInv : HistInv serverInit := by
  intro it hit
  simp [serverInit] at hit

theorem runEvent_histInv (st : ServerState) (mf : FileState) (e : Event)
    (h : HistInv st) : HistInv (runEvent st mf e).1 := by
  cases e with
  | disconnect =>
      intro it hit
      exact ⟨0, rfl, le_refl 0⟩
  | msg ts face m =>
      cases m with
      | nonJson => exact h
      | json v =>
          cases v with
          | null => exact h
          | bool b => exact h
          | num q => exact h
          | str s => exact h
          | arr xs => exact h
          | obj data =>
              simp only [runEvent, process_message]
              split
              · rename_i t heq
                by_cases h1 : t = "env_update"
                · rw [if_pos h1]
                  intro it hit
                  exact h it hit
                · rw [if_neg h1]
                  by_cases h2 : t = "user_utterance"
                  · rw [if_pos h2]
                    simp only [handle_user_utterance]
                    split
                    · exact h
                    · rename_i u hps
                      by_cases hu : u = ""
                      · rw [if_pos hu]
                        exact h
                      · rw [if_neg hu]
                        intro it hit
                        obtain ⟨w, hw, hw0⟩ := h it hit
                        obtain ⟨v, hv, hwv⟩ :=
                          log_turn_hist_of_some st.logger mf face ts u
                            st.env st.current_item_info w hw
                        exact ⟨v, hv, hw0.trans hwv⟩
                  · rw [if_neg h2]
                    by_cases h3 : t = "item_selected"
                    · rw [if_pos h3]
                      simp only [handle_item_selected]
                      split
                      · exact h
                      · intro it hit
                        exact ⟨0, rfl, le_refl 0⟩
                    · rw [if_neg h3]
                      exact h
              · exact h

theorem runEvents_histInv (evs : List Event) (p : ServerState × FileState)
    (h : HistInv p.1) :
    HistInv (evs.foldl (fun a e => runEvent a.1 a.2 e) p).1 := by
  induction evs generalizing p with
  | nil => exact h
  | cons e evs ih =>
      have hstep : HistInv (runEvent p.1 p.2 e).1 := runEvent_histInv p.1 p.2 e h
      simpa only [List.foldl_cons] using ih (runEvent p.1 p.2 e) hstep

theorem reachable_histInv (st : ServerState) (mf : FileState)
    (h : Reachable st mf) : HistInv st := by
  obtain ⟨m0, evs, hrun⟩ := h
  have hfold := runEvents_histInv evs (serverInit, m0) serverInit_histInv
  rw [runEvents] at hrun
  rw [hrun] at hfold
  exact hfold

/-! ## Claim theorems -/

/-- C10: saving a numeric history-max concession `v` to the meta file
and loading it in a fresh process (in-memory cache unset) yields `v`
again, so a restarted server recovers the last persisted value. -/
theorem meta_file_roundtrip (v : ℚ) :
    load_history_max none (save_history_max (some v)) = some v := by
  simp [load_history_max, save_history_max, List.lookup, asPyNumber]

/-- C2: consuming a numeric finalConcession moves the history maximum
to `max(previous, finalConcession)` (to `finalConcession` when unset),
any sequence of external signals is non-decreasing from a set value,
and the value is exactly 0 right after a completed item selection and
right after a client disconnect. -/
theorem history_max_monotone_and_resets :
    (∀ (h q : ℚ) (m : FileState) (fc : JVal), asPyNumber fc = some q →
        (signalStep (some h) m fc).1 = some (max h q)) ∧
    (∀ (q : ℚ) (m : FileState) (fc : JVal), asPyNumber fc = some q →
        (signalStep none m fc).1 = some q) ∧
    (∀ (sigs : List JVal) (v : ℚ) (m : FileState),
        ∃ v', (sigs.foldl (fun a fc => signalStep a.1 a.2 fc) (some v, m)).1
                = some v' ∧ v ≤ v') ∧
    (∀ (st : ServerState) (mf : FileState) (data : List (String × JVal))
        (item : ItemInfo), itemInfoFromMsg data = .ok item →
        (handle_item_selected st mf data).state.logger.history_max_concession
          = some 0) ∧
    (∀ (st : ServerState) (mf : FileState),
        (runEvent st mf .disconnect).1.logger.history_max_concession
          = some 0) := by
  refine ⟨signalStep_numeric, signalStep_unset, ?_, ?_, ?_⟩
  · intro sigs v m
    exact signalFold_mono sigs (some v, m) v rfl
  · intro st mf data item him
    simp only [handle_item_selected, him]
    rfl
  · intro st mf
    rfl

/-- C2 witness: the monotonicity and reset facts evaluated at concrete
inputs. -/
theorem history_max_monotone_and_resets_witness :
    (signalStep (some 3) .missing (.num 7)).1 = some (max 3 7) ∧
    (signalStep none .missing (.num 5)).1 = some 5 ∧
    (∃ v', (([JVal.num 1]).foldl (fun a fc => signalStep a.1 a.2 fc)
             (some 2, FileState.missing)).1 = some v' ∧ (2 : ℚ) ≤ v') ∧
    (handle_item_selected serverInit .missing
        [("maxPrice", .num 9), ("MinPrice", .num 4)]).state.logger.history_max_concession
      = some 0 ∧
    (runEvent serverInit .missing .disconnect).1.logger.history_max_concession
      = some 0 := by
  refine ⟨history_max_monotone_and_resets.1 3 7 .missing (.num 7) rfl,
          history_max_monotone_and_resets.2.1 5 .missing (.num 5) rfl,
          history_max_monotone_and_resets.2.2.1 [JVal.num 1] 2 .missing,
          history_max_monotone_and_resets.2.2.2.1 serverInit .missing
            [("maxPrice", .num 9), ("MinPrice", .num 4)]
            ⟨"", "", 9, 4⟩ (by rfl),
          history_max_monotone_and_resets.2.2.2.2 serverInit .missing⟩

/-- C9: a missing or corrupt face-result file reads as `None`; a null
final concession leaves the history maximum and the meta file alone;
such a turn still builds a record with `final_concession = null`, the
history maximum unchanged by the signal step, and the meta file
untouched; and a string-utterance turn never raises to the
dispatcher. -/
theorem missing_or_corrupt_face_result_degrades :
    (load_face_result .missing = none ∧ load_face_result .corrupt = none) ∧
    (∀ (hist : Option ℚ) (m : FileState), signalStep hist m .null = (hist, m)) ∧
    (∀ (st : LoggerState) (meta : FileState) (ts u : String)
        (env : EnvironmentState) (item : Option ItemInfo) (face : FileState),
        (face = .missing ∨ face = .corrupt) → ¬ pyTrim u = "" →
        ∃ r, (log_turn st meta face ts u env item).2.2 = some r ∧
          r.final_concession = .null ∧
          (log_turn st meta face ts u env item).1.history_max_concession
            = load_history_max st.history_max_concession meta ∧
          (log_turn st meta face ts u env item).2.1 = meta) ∧
    (∀ (st : ServerState) (mf face : FileState) (ts : String)
        (data : List (String × JVal)) (u : String),
        jget data "utterance" = .str u →
        (handle_user_utterance st mf face ts data).raised = false) := by
  refine ⟨⟨rfl, rfl⟩, ?_, ?_, ?_⟩
  · intro hist m
    exact signalStep_nonNumeric hist m .null rfl
  · intro st meta ts u env item face hface hne
    rcases hface with rfl | rfl <;>
      · unfold log_turn
        rw [if_neg hne]
        exact ⟨_, rfl, rfl, rfl, rfl⟩
  · intro st mf face ts data u hj
    simp only [handle_user_utterance, hj, pyOr]
    by_cases hu : truthy (.str u) = true
    · rw [if_pos hu]
      simp only [pyStrip]
      by_cases ht : pyTrim u = ""
      · rw [if_pos ht]
      · rw [if_neg ht]
    · rw [if_neg hu]
      simp only [pyStrip]
      by_cases ht : pyTrim "" = ""
      · rw [if_pos ht]
      · exact absurd rfl ht

/-- C9 witness: a corrupt face file on a concrete turn. -/
theorem missing_or_corrupt_face_result_degrades_witness :
    ∃ r, (log_turn { conversation_history := [], history_max_concession := some 4 }
            .missing .corrupt "t" "hi" envInit none).2.2 = some r ∧
      r.final_concession = .null ∧
      (log_turn { conversation_history := [], history_max_concession := some 4 }
          .missing .corrupt "t" "hi" envInit none).1.history_max_concession
        = load_history_max (some 4) .missing ∧
      (log_turn { conversation_history := [], history_max_concession := some 4 }
          .missing .corrupt "t" "hi" envInit none).2.1 = .missing := by
  exact missing_or_corrupt_face_result_degrades.2.2.1
    { conversation_history := [], history_max_concession := some 4 }
    .missing "t" "hi" envInit none .corrupt (Or.inr rfl) (by decide)

/-- Core of a user turn on a reachable state with an item context: the
record carries a set, non-negative history maximum `p` and the prices
computed by `concession_and_price` at `p`. -/
theorem user_turn_record_price (st : ServerState) (mf : FileState)
    (hreach : Reachable st mf) (face : FileState) (ts : String)
    (data : List (String × JVal)) (it : ItemInfo) (r : TurnRecord)
    (hit : st.current_item_info = some it)
    (hrec : (handle_user_utterance st mf face ts data).record = some r) :
    ∃ p, 0 ≤ p ∧ r.history_max_concession = some p ∧
      r.concession_amount = some (concession_and_price it p).1 ∧
      r.suggested_price = some (concession_and_price it p).2 := by
  obtain ⟨w, hw, hw0⟩ := reachable_histInv st mf hreach it hit
  simp only [handle_user_utterance] at hrec
  split at hrec
  · simp at hrec
  · rename_i u hps
    split at hrec
    · simp at hrec
    · simp only [log_turn] at hrec
      split at hrec
      · simp at hrec
      · simp only [] at hrec
        have hr := Option.some.inj hrec
        subst hr
        simp only []
        have hload : load_history_max st.logger.history_max_concession mf
            = some w := by rw [hw]; rfl
        rw [hload, hit]
        obtain ⟨p, hp, hwp⟩ := signalStep_mono w mf _
        rw [hp]
        exact ⟨p, hw0.trans hwp, rfl, rfl, rfl⟩

/-- C1: on every user turn of a reachable server state whose item
context is present, the derived suggested price equals the
specification's closed formula at the turn's history-max concession
`p` (which is set and non-negative); hence, whenever
`minPrice ≤ maxPrice`, the suggested price lies in
`[minPrice, maxPrice]` and equals `maxPrice` at `p = 0`; and the
formula takes the specified values on the three worked examples. -/
theorem suggested_price_follows_spec_formula :
    (∀ (st : ServerState) (mf : FileState), Reachable st mf →
      ∀ (face : FileState) (ts : String) (data : List (String × JVal))
        (it : ItemInfo) (r : TurnRecord),
        st.current_item_info = some it →
        (handle_user_utterance st mf face ts data).record = some r →
        ∃ p, r.history_max_concession = some p ∧ 0 ≤ p ∧
          r.suggested_price
            = some (specSuggestedPrice it.max_price it.min_price p) ∧
          (it.min_price ≤ it.max_price →
            it.min_price ≤ specSuggestedPrice it.max_price it.min_price p ∧
            specSuggestedPrice it.max_price it.min_price p ≤ it.max_price ∧
            (p = 0 →
              specSuggestedPrice it.max_price it.min_price p = it.max_price))) ∧
    specSuggestedPrice 100 20 25 = 80 ∧
    specSuggestedPrice 100 20 0 = 100 ∧
    specSuggestedPrice 100 20 150 = 20 := by
  refine ⟨?_, by unfold specSuggestedPrice; norm_num,
          by unfold specSuggestedPrice; norm_num,
          by unfold specSuggestedPrice; norm_num [max_def]⟩
  intro st mf hreach face ts data it r hit hrec
  obtain ⟨p, hp0, hh, _, hsp⟩ :=
    user_turn_record_price st mf hreach face ts data it r hit hrec
  refine ⟨p, hh, hp0, ?_, ?_⟩
  · rw [hsp, price_eq_spec]
  · intro hmm
    exact ⟨spec_price_lower _ _ _, spec_price_upper _ _ _ hmm hp0,
           fun h0 => by rw [h0]; exact spec_price_at_zero _ _ hmm⟩

/-- C1 witness: the formula facts instantiated on the concrete apple
run (all hypotheses discharged by computation). -/
theorem suggested_price_follows_spec_formula_witness :
    ∃ p, rec₀.history_max_concession = some p ∧ 0 ≤ p ∧
      rec₀.suggested_price = some (specSuggestedPrice 100 20 p) ∧
      ((20 : ℚ) ≤ 100 →
        (20 : ℚ) ≤ specSuggestedPrice 100 20 p ∧
        specSuggestedPrice 100 20 p ≤ 100 ∧
        (p = 0 → specSuggestedPrice 100 20 p = 100)) :=
  suggested_price_follows_spec_formula.1 run₀.1 run₀.2
    ⟨.missing, [.msg "t1" .missing itemMsg₀], rfl⟩
    face₀ "t2" turnData₀ ⟨"a", "apple", 100, 20⟩ rec₀
    (by decide) (Option.some_get _).symm

theorem runEvent_dialogue (st : ServerState) (mf : FileState) (e : Event) :
    (runEvent st mf e).1.dialogue_concession =
      if isUserTurn e then min (st.dialogue_concession + 5) 50
      else st.dialogue_concession := by
  cases e with
  | disconnect => rfl
  | msg ts face m =>
      cases m with
      | nonJson => rfl
      | json v =>
          cases v with
          | null => rfl
          | bool b => rfl
          | num q => rfl
          | str s => rfl
          | arr xs => rfl
          | obj data =>
              cases hty : jget data "type" with
              | str t =>
                  simp only [runEvent, process_message, isUserTurn, hty]
                  by_cases h2 : t = "user_utterance"
                  · subst h2
                    rw [if_neg (by decide : ¬ ("user_utterance" : String)
                          = "env_update"), if_pos rfl]
                    simp only [handle_user_utterance, eq_self_iff_true,
                      true_and]
                    cases hps : pyStrip (pyOr (jget data "utterance")
                        (.str "")) with
                    | error e => rfl
                    | ok u =>
                        by_cases hu : u = ""
                        · subst hu
                          rfl
                        · simp only []
                          rw [if_neg hu, if_neg hu]
                          simp
                  · simp only [if_neg h2]
                    by_cases h1 : t = "env_update"
                    · simp only [if_pos h1]
                      rfl
                    · simp only [if_neg h1]
                      by_cases h3 : t = "item_selected"
                      · simp only [if_pos h3, handle_item_selected]
                        cases him : itemInfoFromMsg data with
                        | error e => rfl
                        | ok item => rfl
                      · simp only [if_neg h3]
                        rfl
              | null => simp [runEvent, process_message, isUserTurn, hty]
              | bool b => simp [runEvent, process_message, isUserTurn, hty]
              | num q => simp [runEvent, process_message, isUserTurn, hty]
              | arr xs => simp [runEvent, process_message, isUserTurn, hty]
              | obj kvs => simp [runEvent, process_message, isUserTurn, hty]

theorem dc_step (k : ℕ) :
    min (min (5 * (k : ℚ)) 50 + 5) 50 = min (5 * ((k + 1 : ℕ) : ℚ)) 50 := by
  push_cast
  rcases le_or_lt (5 * (k : ℚ)) 50 with h | h
  · rw [min_eq_left h]
    ring_nf
  · rw [min_eq_right h.le, min_eq_right (by norm_num : (50 : ℚ) ≤ 50 + 5),
        min_eq_right (by linarith)]

theorem runEvents_dialogue (evs : List Event) (p : ServerState × FileState)
    (k : ℕ) (hp : p.1.dialogue_concession = min (5 * (k : ℚ)) 50) :
    (evs.foldl (fun a e => runEvent a.1 a.2 e) p).1.dialogue_concession
      = min (5 * ((k + evs.countP isUserTurn : ℕ) : ℚ)) 50 := by
  induction evs generalizing p k with
  | nil => simpa using hp
  | cons e evs ih =>
      by_cases he : isUserTurn e = true
      · have hstep : (runEvent p.1 p.2 e).1.dialogue_concession
            = min (5 * ((k + 1 : ℕ) : ℚ)) 50 := by
          rw [runEvent_dialogue, if_pos he, hp]
          exact dc_step k
        have hrec := ih (runEvent p.1 p.2 e) (k + 1) hstep
        have hcount : (k + 1) + evs.countP isUserTurn
            = k + (e :: evs).countP isUserTurn := by
          simp [List.countP_cons, he]
          omega
        rw [List.foldl_cons]
        rw [hcount] at hrec
        exact hrec
      · have hstep : (runEvent p.1 p.2 e).1.dialogue_concession
            = min (5 * (k : ℚ)) 50 := by
          rw [runEvent_dialogue, if_neg he, hp]
        have hrec := ih (runEvent p.1 p.2 e) k hstep
        have hcount : k + evs.countP isUserTurn
            = k + (e :: evs).countP isUserTurn := by
          simp [List.countP_cons, he]
        rw [List.foldl_cons]
        rw [hcount] at hrec
        exact hrec

/-- C3: the dialogue concession after any event sequence equals
`min(5n, 50)` where `n` counts the non-empty user-utterance turns (in
particular for sequences of user turns only, `n` is the sequence
length), and the suggested price of a turn is a function of the item
context and history-max concession only — two states differing only in
`dialogue_concession` produce identical suggested prices. -/
theorem dialogue_concession_formula_and_independence :
    (∀ (mf₀ : FileState) (evs : List Event),
        (runEvents mf₀ evs).1.dialogue_concession
          = min (5 * (evs.countP isUserTurn : ℚ)) 50) ∧
    (∀ (mf₀ : FileState) (evs : List Event),
        (∀ e ∈ evs, isUserTurn e = true) →
        (runEvents mf₀ evs).1.dialogue_concession
          = min (5 * (evs.length : ℚ)) 50) ∧
    (∀ (st : ServerState) (d : ℚ) (mf face : FileState) (ts : String)
        (data : List (String × JVal)),
        ((handle_user_utterance { st with dialogue_concession := d }
            mf face ts data).record.map TurnRecord.suggested_price)
          = ((handle_user_utterance st mf face ts data).record.map
              TurnRecord.suggested_price)) := by
  refine ⟨?_, ?_, ?_⟩
  · intro mf₀ evs
    have h0 : (serverInit, mf₀).1.dialogue_concession
        = min (5 * ((0 : ℕ) : ℚ)) 50 := by
      simp [serverInit]
    have := runEvents_dialogue evs (serverInit, mf₀) 0 h0
    simpa [runEvents] using this
  · intro mf₀ evs hall
    have h0 : (serverInit, mf₀).1.dialogue_concession
        = min (5 * ((0 : ℕ) : ℚ)) 50 := by
      simp [serverInit]
    have := runEvents_dialogue evs (serverInit, mf₀) 0 h0
    rw [List.countP_eq_length.mpr hall] at this
    simpa [runEvents] using this
  · intro st d mf face ts data
    simp only [handle_user_utterance]
    cases hps : pyStrip (pyOr (jget data "utterance") (.str "")) with
    | error e => rfl
    | ok u =>
        by_cases hu : u = ""
        · subst hu
          rfl
        · simp only []
          rw [if_neg hu, if_neg hu]

/-- C3 witness: two concrete user turns land at 10; independence
evaluated at a concrete pair of states. -/
theorem dialogue_concession_formula_and_independence_witness :
    (runEvents .missing
        [.msg "t1" .missing (.json (.obj turnData₀)),
         .msg "t2" .missing (.json (.obj turnData₀))]).1.dialogue_concession
      = min (5 * (([Event.msg "t1" .missing (.json (.obj turnData₀)),
                    Event.msg "t2" .missing
                      (.json (.obj turnData₀))].length : ℕ) : ℚ)) 50 :=
  dialogue_concession_formula_and_independence.2.1 .missing
    [.msg "t1" .missing (.json (.obj turnData₀)),
     .msg "t2" .missing (.json (.obj turnData₀))] (by decide)

/-- C4 counterexample: a reachable turn with `maxPrice=10 < minPrice=20`
is accepted but yields `suggestedPrice = 20 = minPrice`, not
`maxPrice = 10` as claimed. -/
theorem inverted_bounds_price_not_max :
    run₁.1.current_item_info = some ⟨"", "", 10, 20⟩ ∧
    (turn₁.record.map TurnRecord.suggested_price) = some (some 20) ∧
    (20 : ℚ) ≠ 10 := by
  refine ⟨by decide, ?_, by norm_num⟩
  calc (turn₁.record.map TurnRecord.suggested_price)
      = some (some ((concession_and_price ⟨"", "", 10, 20⟩ 0).2)) := rfl
    _ = some (some 20) := by
        rw [concession_at_neg_gap ⟨"", "", 10, 20⟩ 0 (by norm_num)]

/-- C4 (amended): on every user turn of a reachable state whose item
context has `maxPrice < minPrice`, the input is not rejected — a record
is still produced, the gap is clamped to 0 (so the concession amount is
0) — and the resulting suggested price equals `minPrice` (the final
clamp fires), not `maxPrice`. -/
theorem inverted_bounds_price_eq_min (st : ServerState) (mf : FileState)
    (hreach : Reachable st mf) (face : FileState) (ts : String)
    (data : List (String × JVal)) (it : ItemInfo) (r : TurnRecord)
    (hit : st.current_item_info = some it)
    (hlt : it.max_price < it.min_price)
    (hrec : (handle_user_utterance st mf face ts data).record = some r) :
    r.concession_amount = some 0 ∧ r.suggested_price = some it.min_price := by
  obtain ⟨p, hp0, hh, hca, hsp⟩ :=
    user_turn_record_price st mf hreach face ts data it r hit hrec
  rw [concession_at_neg_gap it p hlt] at hca hsp
  exact ⟨hca, hsp⟩

/-- C4 witness: the amended claim on the concrete inverted-bounds
run. -/
theorem inverted_bounds_price_eq_min_witness :
    rec₁.concession_amount = some 0 ∧ rec₁.suggested_price = some 20 :=
  inverted_bounds_price_eq_min run₁.1 run₁.2
    ⟨.missing, [.msg "t1" .missing itemMsg₁], rfl⟩
    .missing "t2" turnData₀ ⟨"", "", 10, 20⟩ rec₁
    (by decide) (by norm_num) (Option.some_get _).symm

/-- C5 counterexample: a message carrying only the camelCase `minPrice`
spelling stores the 0 default (the code reads `MinPrice`, not
`minPrice`), and a present-but-falsy `maxPrice` (value 0) is
overridden by `max_price` instead of being used. -/
theorem item_minPrice_casing_counterexample :
    (itemInfoFromMsg [("type", .str "item_selected"),
        ("minPrice", .num 20)]).toOption = some ⟨"", "", 0, 0⟩ ∧
    (0 : ℚ) ≠ 20 ∧
    (itemInfoFromMsg [("type", .str "item_selected"), ("maxPrice", .num 0),
        ("max_price", .num 50)]).toOption = some ⟨"", "", 50, 0⟩ ∧
    (50 : ℚ) ≠ 0 :=
  ⟨by decide, by norm_num, by decide, by norm_num⟩

/-- C5 (amended): the four item fields are read with Python-truthiness
precedence — `itemId`, `itemName`, `maxPrice` prefer the camelCase
spelling when it is truthy, falling back to `item_id`/`item_name`/
`max_price` when that is truthy, and otherwise to the defaults
("" for the id and name, 0 for the price); the minimum price prefers
the PascalCase spelling `MinPrice` (not camelCase `minPrice`), falling
back to `min_price`, and defaults to 0 when both are absent or
falsy. -/
theorem item_field_precedence (data : List (String × JVal)) (item : ItemInfo)
    (him : itemInfoFromMsg data = .ok item) :
    (truthy (jget data "itemId") = true →
      item.item_id = pyStr (jget data "itemId")) ∧
    (truthy (jget data "itemName") = true →
      pyStrip (jget data "itemName") = .ok item.item_name) ∧
    (truthy (jget data "maxPrice") = true →
      pyFloat (jget data "maxPrice") = .ok item.max_price) ∧
    (truthy (jget data "maxPrice") = false →
      truthy (jget data "max_price") = true →
      pyFloat (jget data "max_price") = .ok item.max_price) ∧
    (truthy (jget data "MinPrice") = true →
      pyFloat (jget data "MinPrice") = .ok item.min_price) ∧
    (truthy (jget data "MinPrice") = false →
      truthy (jget data "min_price") = true →
      pyFloat (jget data "min_price") = .ok item.min_price) ∧
    (truthy (jget data "MinPrice") = false →
      truthy (jget data "min_price") = false →
      item.min_price = 0) ∧
    (truthy (jget data "itemId") = false →
      truthy (jget data "item_id") = true →
      item.item_id = pyStr (jget data "item_id")) ∧
    (truthy (jget data "itemId") = false →
      truthy (jget data "item_id") = false →
      item.item_id = "") ∧
    (truthy (jget data "itemName") = false →
      truthy (jget data "item_name") = true →
      pyStrip (jget data "item_name") = .ok item.item_name) ∧
    (truthy (jget data "itemName") = false →
      truthy (jget data "item_name") = false →
      item.item_name = "") ∧
    (truthy (jget data "maxPrice") = false →
      truthy (jget data "max_price") = false →
      item.max_price = 0) := by
  simp only [itemInfoFromMsg] at him
  split at him
  · exact absurd him (by simp)
  · rename_i namev hname
    split at him
    · exact absurd him (by simp)
    · rename_i maxv hmax
      split at him
      · exact absurd him (by simp)
      · rename_i minv hmin
        rw [Except.ok.injEq] at him
        subst him
        refine ⟨?_, ?_, ?_, ?_, ?_, ?_, ?_, ?_, ?_, ?_, ?_, ?_⟩
        · intro ht
          simp only [pyOr, if_pos ht]
        · intro ht
          rw [pyOr, if_pos ht] at hname
          exact hname
        · intro ht
          rw [pyOr, if_pos ht] at hmax
          exact hmax
        · intro hf ht
          rw [pyOr, if_neg (by simp [hf]), pyOr, if_pos ht] at hmax
          exact hmax
        · intro ht
          rw [pyOr, if_pos ht] at hmin
          exact hmin
        · intro hf ht
          rw [pyOr, if_neg (by simp [hf]), pyOr, if_pos ht] at hmin
          exact hmin
        · intro hf hf2
          rw [pyOr, if_neg (by simp [hf]), pyOr, if_neg (by simp [hf2])]
            at hmin
          simp only [pyFloat] at hmin
          exact (Except.ok.injEq _ _).mp hmin.symm
        · intro hf ht
          simp only [pyOr, if_neg (show ¬ truthy (jget data "itemId") = true
            by simp [hf]), if_pos ht]
        · intro hf hf2
          simp only [pyOr, if_neg (show ¬ truthy (jget data "itemId") = true
            by simp [hf]), if_neg (show ¬ truthy (jget data "item_id") = true
            by simp [hf2])]
          rfl
        · intro hf ht
          rw [pyOr, if_neg (by simp [hf]), pyOr, if_pos ht] at hname
          exact hname
        · intro hf hf2
          rw [pyOr, if_neg (by simp [hf]), pyOr, if_neg (by simp [hf2])]
            at hname
          simp only [pyStrip] at hname
          exact ((Except.ok.injEq _ _).mp hname).symm
        · intro hf hf2
          rw [pyOr, if_neg (by simp [hf]), pyOr, if_neg (by simp [hf2])]
            at hmax
          simp only [pyFloat] at hmax
          exact (Except.ok.injEq _ _).mp hmax.symm

/-- C5 witness: the precedence facts on a fully camel/Pascal-spelled
message, and the snake_case fallback on an item_id-only message. -/
theorem item_field_precedence_witness :
    ((⟨"x", "n", 30, 7⟩ : ItemInfo).item_id
        = pyStr (jget [("itemId", JVal.str "x"), ("itemName", .str "n"),
            ("maxPrice", .num 30), ("MinPrice", .num 7)] "itemId")) ∧
    (pyFloat (jget [("itemId", JVal.str "x"), ("itemName", .str "n"),
        ("maxPrice", .num 30), ("MinPrice", .num 7)] "MinPrice")
      = .ok (⟨"x", "n", 30, 7⟩ : ItemInfo).min_price) ∧
    ((⟨"z", "m", 0, 0⟩ : ItemInfo).item_id
        = pyStr (jget [("item_id", JVal.str "z"), ("item_name", .str "m")]
            "item_id")) ∧
    (pyStrip (jget [("item_id", JVal.str "z"), ("item_name", .str "m")]
        "item_name") = .ok (⟨"z", "m", 0, 0⟩ : ItemInfo).item_name) := by
  have h := item_field_precedence
    [("itemId", JVal.str "x"), ("itemName", .str "n"),
     ("maxPrice", .num 30), ("MinPrice", .num 7)]
    ⟨"x", "n", 30, 7⟩ rfl
  have h2 := item_field_precedence
    [("item_id", JVal.str "z"), ("item_name", .str "m")]
    ⟨"z", "m", 0, 0⟩ rfl
  exact ⟨h.1 (by decide), h.2.2.2.2.1 (by decide),
         h2.2.2.2.2.2.2.2.1 (by decide) (by decide),
         h2.2.2.2.2.2.2.2.2.2.1 (by decide) (by decide)⟩

/-- C6 counterexample: the record of a concrete turn carries exactly
the ten source keys — `final_concession` and `history_max_concession`
are the two concession values present; no `dialogue_concession` entry
exists, contradicting the claim that dialogueConcession is part of the
record. -/
theorem turn_record_lacks_dialogue_concession :
    ((turnRecordJson rec₀).map Prod.fst)
      = ["timestamp", "utterance", "history", "environment", "item_info",
         "face_result", "final_concession", "history_max_concession",
         "concession_amount", "suggested_price"] ∧
    ¬ ("dialogue_concession" ∈ (turnRecordJson rec₀).map Prod.fst) ∧
    ("final_concession" ∈ (turnRecordJson rec₀).map Prod.fst) :=
  ⟨rfl, by decide, by decide⟩

/-- C6 (amended): every non-empty user turn assembles a record with a
timestamp, the stripped utterance text, the full conversation history
at that point, the environment snapshot, the item context, the face
result used, the two concession values `finalConcession` and
`historyMaxConcession` (dialogueConcession is not part of the record),
and the derived suggested price — the ten source keys exactly. -/
theorem turn_record_contents (st : LoggerState) (meta face : FileState)
    (ts u : String) (env : EnvironmentState) (item : Option ItemInfo)
    (hne : ¬ pyTrim u = "") :
    ∃ r, (log_turn st meta face ts u env item).2.2 = some r ∧
      r.timestamp = ts ∧ r.utterance = pyTrim u ∧
      r.history = st.conversation_history ++ [pyTrim u] ∧
      r.environment = env ∧ r.item_info = item ∧
      r.face_result = load_face_result face ∧
      ((turnRecordJson r).map Prod.fst)
        = ["timestamp", "utterance", "history", "environment", "item_info",
           "face_result", "final_concession", "history_max_concession",
           "concession_amount", "suggested_price"] := by
  unfold log_turn
  rw [if_neg hne]
  exact ⟨_, rfl, rfl, rfl, rfl, rfl, rfl, rfl, rfl⟩

/-- C6 witness: the amended record-contents fact on a concrete turn. -/
theorem turn_record_contents_witness :
    ∃ r, (log_turn
            { conversation_history := ["old"],
              history_max_concession := some 2 }
            FileState.missing face₀ "t3" "yo" envInit none).2.2 = some r ∧
      r.timestamp = "t3" ∧ r.utterance = pyTrim "yo" ∧
      r.history = ["old"] ++ [pyTrim "yo"] ∧
      r.environment = envInit ∧ r.item_info = none ∧
      r.face_result = load_face_result face₀ ∧
      ((turnRecordJson r).map Prod.fst)
        = ["timestamp", "utterance", "history", "environment", "item_info",
           "face_result", "final_concession", "history_max_concession",
           "concession_amount", "suggested_price"] :=
  turn_record_contents
    { conversation_history := ["old"], history_max_concession := some 2 }
    FileState.missing face₀ "t3" "yo" envInit none (by decide)

/-- C7 counterexample: wrong-typed fields do escape the dispatch step —
a numeric `utterance` (the `.strip()` call) and a non-numeric truthy
`maxPrice` (the `float()` call) both raise, which terminates the
connection. -/
theorem dispatch_raises_on_wrong_typed_fields :
    (process_message serverInit .missing .missing "t"
        (.json (.obj [("type", .str "user_utterance"),
                      ("utterance", .num 5)]))).raised = true ∧
    (process_message serverInit .missing .missing "t"
        (.json (.obj [("type", .str "item_selected"),
                      ("maxPrice", .arr [.num 1])]))).raised = true :=
  ⟨rfl, rfl⟩

/-- C7 (amended): non-JSON frames, frames whose `type` field is
missing, non-string, or an unrecognized string, and user turns with a
missing utterance are logged and dropped — no raise, state untouched,
connection kept open. An item selection whose read fields are all
missing is NOT dropped: it is processed with the defaults, installing
the item context ("", "", 0, 0), resetting the history maximum and
acknowledging (a wrong-typed value under the unread key `minPrice` is
likewise simply ignored, as the same theorem instance shows). But
wrong-typed values in the fields the code does read are not contained:
a truthy non-string utterance, a truthy non-string selected
`itemName`, or a truthy non-float-convertible `maxPrice` (or
`MinPrice`, once the earlier fields are absent so their coercions
succeed) raises out of the dispatch step, terminating that
connection. -/
theorem dispatch_error_containment :
    (∀ (st : ServerState) (mf face : FileState) (ts : String),
        process_message st mf face ts .nonJson
          = { state := st, metaFile := mf, raised := false, record := none }) ∧
    (∀ (st : ServerState) (mf face : FileState) (ts : String)
        (data : List (String × JVal)) (t : String),
        jget data "type" = .str t →
        ¬ t = "env_update" → ¬ t = "user_utterance" → ¬ t = "item_selected" →
        process_message st mf face ts (.json (.obj data))
          = { state := st, metaFile := mf, raised := false, record := none }) ∧
    (∀ (st : ServerState) (mf face : FileState) (ts : String)
        (data : List (String × JVal)),
        jget data "type" = .null →
        process_message st mf face ts (.json (.obj data))
          = { state := st, metaFile := mf, raised := false, record := none }) ∧
    (∀ (st : ServerState) (mf face : FileState) (ts : String)
        (data : List (String × JVal)),
        jget data "type" = .str "user_utterance" →
        jget data "utterance" = .null →
        process_message st mf face ts (.json (.obj data))
          = { state := st, metaFile := mf, raised := false, record := none }) ∧
    (∀ (st : ServerState) (mf face : FileState) (ts : String)
        (data : List (String × JVal)),
        jget data "type" = .str "item_selected" →
        jget data "itemId" = .null → jget data "item_id" = .null →
        jget data "itemName" = .null → jget data "item_name" = .null →
        jget data "maxPrice" = .null → jget data "max_price" = .null →
        jget data "MinPrice" = .null → jget data "min_price" = .null →
        process_message st mf face ts (.json (.obj data))
          = { state :=
                { st with
                  current_item_info := some ⟨"", "", 0, 0⟩,
                  logger := { conversation_history := [],
                              history_max_concession := some 0 } },
              metaFile := save_history_max (some 0), raised := false,
              record := none }) ∧
    (∀ (st : ServerState) (mf face : FileState) (ts : String)
        (data : List (String × JVal)) (u : JVal),
        jget data "type" = .str "user_utterance" →
        jget data "utterance" = u → truthy u = true → (∀ s, ¬ u = .str s) →
        (process_message st mf face ts (.json (.obj data))).raised = true) ∧
    (∀ (st : ServerState) (mf face : FileState) (ts : String)
        (data : List (String × JVal)) (v : JVal),
        jget data "type" = .str "item_selected" →
        jget data "itemName" = v → truthy v = true → (∀ s, ¬ v = .str s) →
        (process_message st mf face ts (.json (.obj data))).raised = true) ∧
    (∀ (st : ServerState) (mf face : FileState) (ts : String)
        (data : List (String × JVal)) (w : JVal),
        jget data "type" = w → (∀ s, ¬ w = .str s) →
        process_message st mf face ts (.json (.obj data))
          = { state := st, metaFile := mf, raised := false, record := none }) ∧
    (∀ (st : ServerState) (mf face : FileState) (ts : String)
        (data : List (String × JVal)) (v : JVal),
        jget data "type" = .str "item_selected" →
        jget data "itemName" = .null → jget data "item_name" = .null →
        jget data "maxPrice" = v → truthy v = true →
        pyFloat v = .error () →
        (process_message st mf face ts (.json (.obj data))).raised = true) ∧
    (∀ (st : ServerState) (mf face : FileState) (ts : String)
        (data : List (String × JVal)) (v : JVal),
        jget data "type" = .str "item_selected" →
        jget data "itemName" = .null → jget data "item_name" = .null →
        jget data "maxPrice" = .null → jget data "max_price" = .null →
        jget data "MinPrice" = v → truthy v = true →
        pyFloat v = .error () →
        (process_message st mf face ts (.json (.obj data))).raised
          = true) := by
  refine ⟨fun st mf face ts => rfl, ?_, ?_, ?_, ?_, ?_, ?_, ?_, ?_, ?_⟩
  · intro st mf face ts data t hty h1 h2 h3
    simp only [process_message, hty, if_neg h1, if_neg h2, if_neg h3]
  · intro st mf face ts data hty
    simp only [process_message, hty]
  · intro st mf face ts data hty hutt
    simp only [process_message, hty,
      if_neg (by decide : ¬ ("user_utterance" : String) = "env_update"),
      if_pos rfl, handle_user_utterance, hutt]
    rfl
  · intro st mf face ts data hty h1 h2 h3 h4 h5 h6 h7 h8
    simp only [process_message, hty,
      if_neg (by decide : ¬ ("item_selected" : String) = "env_update"),
      if_neg (by decide : ¬ ("item_selected" : String) = "user_utterance"),
      if_pos rfl, handle_item_selected, itemInfoFromMsg,
      h1, h2, h3, h4, h5, h6, h7, h8]
    rfl
  · intro st mf face ts data u hty hutt htr hns
    simp only [process_message, hty,
      if_neg (by decide : ¬ ("user_utterance" : String) = "env_update"),
      if_pos rfl, handle_user_utterance, hutt, pyOr, if_pos htr]
    cases u with
    | str s => exact absurd rfl (hns s)
    | null => simp [truthy] at htr
    | bool b => rfl
    | num q => rfl
    | arr xs => rfl
    | obj kvs => rfl
  · intro st mf face ts data v hty hnm htr hns
    simp only [process_message, hty,
      if_neg (by decide : ¬ ("item_selected" : String) = "env_update"),
      if_neg (by decide : ¬ ("item_selected" : String) = "user_utterance"),
      if_pos rfl, handle_item_selected, itemInfoFromMsg, hnm, pyOr,
      if_pos htr]
    cases v with
    | str s => exact absurd rfl (hns s)
    | null => simp [truthy] at htr
    | bool b => rfl
    | num q => rfl
    | arr xs => rfl
    | obj kvs => rfl
  · intro st mf face ts data w hty hns
    cases w with
    | str s => exact absurd rfl (hns s)
    | null => simp only [process_message, hty]
    | bool b => simp only [process_message, hty]
    | num q => simp only [process_message, hty]
    | arr xs => simp only [process_message, hty]
    | obj kvs => simp only [process_message, hty]
  · intro st mf face ts data v hty hn1 hn2 hmx htr hfv
    simp only [process_message, hty,
      if_neg (by decide : ¬ ("item_selected" : String) = "env_update"),
      if_neg (by decide : ¬ ("item_selected" : String) = "user_utterance"),
      if_pos rfl, handle_item_selected, itemInfoFromMsg, hn1, hn2, hmx]
    rw [show pyOr v (pyOr (jget data "max_price") (JVal.num 0)) = v from
          by rw [pyOr, if_pos htr]]
    rw [hfv]
    rfl
  · intro st mf face ts data v hty hn1 hn2 hm1 hm2 hmn htr hfv
    simp only [process_message, hty,
      if_neg (by decide : ¬ ("item_selected" : String) = "env_update"),
      if_neg (by decide : ¬ ("item_selected" : String) = "user_utterance"),
      if_pos rfl, handle_item_selected, itemInfoFromMsg, hn1, hn2, hm1, hm2,
      hmn]
    rw [show pyOr v (pyOr (jget data "min_price") (JVal.num 0)) = v from
          by rw [pyOr, if_pos htr]]
    rw [hfv]
    rfl

/-- C7 witness: the containment and raising facts on concrete frames,
including an all-fields-missing item selection that carries a junk
`minPrice` value and is still processed with defaults. -/
theorem dispatch_error_containment_witness :
    (process_message serverInit .missing .missing "t" .nonJson
      = { state := serverInit, metaFile := .missing, raised := false,
          record := none }) ∧
    (process_message serverInit .missing .missing "t"
        (.json (.obj [("type", .str "ping")]))
      = { state := serverInit, metaFile := .missing, raised := false,
          record := none }) ∧
    (process_message serverInit .missing .missing "t"
        (.json (.obj [("type", .str "user_utterance")]))
      = { state := serverInit, metaFile := .missing, raised := false,
          record := none }) ∧
    (process_message serverInit .missing .missing "t"
        (.json (.obj [("type", .str "item_selected"),
                      ("minPrice", .arr [.num 1])]))
      = { state :=
            { serverInit with
              current_item_info := some ⟨"", "", 0, 0⟩,
              logger := { conversation_history := [],
                          history_max_concession := some 0 } },
          metaFile := save_history_max (some 0), raised := false,
          record := none }) ∧
    ((process_message serverInit .missing .missing "t"
        (.json (.obj [("type", .str "user_utterance"),
                      ("utterance", .num 5)]))).raised = true) ∧
    (process_message serverInit .missing .missing "t"
        (.json (.obj [("type", .num 3)]))
      = { state := serverInit, metaFile := .missing, raised := false,
          record := none }) ∧
    ((process_message serverInit .missing .missing "t"
        (.json (.obj [("type", .str "item_selected"),
                      ("maxPrice", .arr [.num 1])]))).raised = true) ∧
    ((process_message serverInit .missing .missing "t"
        (.json (.obj [("type", .str "item_selected"),
                      ("MinPrice", .str "abc")]))).raised = true) := by
  obtain ⟨c1, c2, c3, c4, c5, c6, c7, c8, c9, c10⟩ :=
    dispatch_error_containment
  exact ⟨c1 serverInit .missing .missing "t",
         c2 serverInit .missing .missing "t" [("type", .str "ping")] "ping"
           rfl (by decide) (by decide) (by decide),
         c4 serverInit .missing .missing "t"
           [("type", .str "user_utterance")] rfl rfl,
         c5 serverInit .missing .missing "t"
           [("type", .str "item_selected"), ("minPrice", .arr [.num 1])]
           rfl rfl rfl rfl rfl rfl rfl rfl rfl,
         c6 serverInit .missing .missing "t"
           [("type", .str "user_utterance"), ("utterance", .num 5)]
           (.num 5) rfl rfl (by decide) (fun s h => JVal.noConfusion h),
         c8 serverInit .missing .missing "t" [("type", .num 3)] (.num 3)
           rfl (fun s h => JVal.noConfusion h),
         c9 serverInit .missing .missing "t"
           [("type", .str "item_selected"), ("maxPrice", .arr [.num 1])]
           (.arr [.num 1]) rfl rfl rfl rfl (by decide) rfl,
         c10 serverInit .missing .missing "t"
           [("type", .str "item_selected"), ("MinPrice", .str "abc")]
           (.str "abc") rfl rfl rfl rfl rfl rfl (by decide) rfl⟩


theorem lookup_pair_mem {data : List (String × JVal)} {k : String} {v : JVal}
    (h : data.lookup k = some v) : ∃ k', (k', v) ∈ data := by
  induction data with
  | nil => simp [List.lookup] at h
  | cons kv rest ih =>
      rw [List.lookup] at h
      split at h
      · obtain rfl := Option.some.inj h
        exact ⟨kv.1, List.mem_cons_self _ _⟩
      · obtain ⟨k', hk'⟩ := ih h
        exact ⟨k', List.mem_cons_of_mem kv hk'⟩

theorem clampDial_range (v : JVal) (n : ℤ) (h : clampDial v = .ok n) :
    0 ≤ n ∧ n ≤ 10 := by
  cases v with
  | num q =>
      simp only [clampDial, Except.ok.injEq] at h
      subst h
      constructor
      · exact Int.le_floor.mpr (by push_cast; exact le_max_left _ _)
      · calc ⌊max 0 (min 10 q)⌋ ≤ ⌊(10 : ℚ)⌋ :=
              Int.floor_le_floor
                (max_le (by norm_num) (min_le_left 10 q))
          _ = 10 := by norm_num
  | bool b =>
      cases b <;> simp_all [clampDial] <;> omega
  | null => simp [clampDial] at h
  | str s => simp [clampDial] at h
  | arr xs => simp [clampDial] at h
  | obj kvs => simp [clampDial] at h

theorem setNoise_inv : ∀ (s : EnvironmentState) (n : ℤ),
    0 ≤ n → n ≤ 10 → EnvInv s → EnvInv (setNoise s n) :=
  fun _ _ h0 h10 hi => ⟨h0, h10, hi.2.2⟩

theorem setCrowd_inv : ∀ (s : EnvironmentState) (n : ℤ),
    0 ≤ n → n ≤ 10 → EnvInv s → EnvInv (setCrowd s n) :=
  fun _ _ h0 h10 hi => ⟨hi.1, hi.2.1, h0, h10, hi.2.2.2.2⟩

theorem setLight_inv : ∀ (s : EnvironmentState) (n : ℤ),
    0 ≤ n → n ≤ 10 → EnvInv s → EnvInv (setLight s n) :=
  fun _ _ h0 h10 hi =>
    ⟨hi.1, hi.2.1, hi.2.2.1, hi.2.2.2.1, h0, h10, hi.2.2.2.2.2.2⟩

theorem setVis_inv : ∀ (s : EnvironmentState) (n : ℤ),
    0 ≤ n → n ≤ 10 → EnvInv s → EnvInv (setVis s n) :=
  fun _ _ h0 h10 hi =>
    ⟨hi.1, hi.2.1, hi.2.2.1, hi.2.2.2.1, hi.2.2.2.2.1,
     hi.2.2.2.2.2.1, h0, h10⟩

theorem applyDial_out (data : List (String × JVal)) (key : String)
    (st : EnvironmentState) (set : EnvironmentState → ℤ → EnvironmentState)
    (hset : ∀ s n, 0 ≤ n → n ≤ 10 → EnvInv s → EnvInv (set s n))
    (hset2 : ∀ s n, (set s n).time_pressure = s.time_pressure)
    (h : EnvInv st) :
    EnvInv (applyDial data key st set).1 ∧
    (applyDial data key st set).1.time_pressure = st.time_pressure := by
  unfold applyDial
  cases data.lookup key with
  | none => exact ⟨h, rfl⟩
  | some v =>
      simp only []
      cases hc : clampDial v with
      | ok n =>
          obtain ⟨h0, h10⟩ := clampDial_range v n hc
          exact ⟨hset st n h0 h10 h, hset2 st n⟩
      | error e => exact ⟨h, rfl⟩

theorem update_from_dict_env (st : EnvironmentState)
    (data : List (String × JVal)) (h : EnvInv st) :
    EnvInv (update_from_dict st data).1 ∧
    (update_from_dict st data).1.time_pressure = st.time_pressure := by
  simp only [update_from_dict]
  have A1 := applyDial_out data "noise_level" st setNoise
    setNoise_inv (fun s n => rfl) h
  by_cases b1 : (applyDial data "noise_level" st setNoise).2 = true
  · rw [if_pos b1]
    exact A1
  · rw [if_neg b1]
    have A2 := applyDial_out data "crowd_density"
      (applyDial data "noise_level" st setNoise).1 setCrowd
      setCrowd_inv (fun s n => rfl) A1.1
    by_cases b2 : (applyDial data "crowd_density"
        (applyDial data "noise_level" st setNoise).1 setCrowd).2 = true
    · rw [if_pos b2]
      exact ⟨A2.1, A2.2.trans A1.2⟩
    · rw [if_neg b2]
      have A3 := applyDial_out data "lighting_level"
        (applyDial data "crowd_density"
          (applyDial data "noise_level" st setNoise).1 setCrowd).1 setLight
        setLight_inv (fun s n => rfl) A2.1
      by_cases b3 : (applyDial data "lighting_level"
          (applyDial data "crowd_density"
            (applyDial data "noise_level" st setNoise).1 setCrowd).1
          setLight).2 = true
      · rw [if_pos b3]
        exact ⟨A3.1, (A3.2.trans A2.2).trans A1.2⟩
      · rw [if_neg b3]
        have A4 := applyDial_out data "visual_distractions"
          (applyDial data "lighting_level"
            (applyDial data "crowd_density"
              (applyDial data "noise_level" st setNoise).1 setCrowd).1
            setLight).1 setVis setVis_inv (fun s n => rfl) A3.1
        exact ⟨A4.1, ((A4.2.trans A3.2).trans A2.2).trans A1.2⟩

theorem applyDial_no_raise (data : List (String × JVal)) (key : String)
    (st : EnvironmentState) (set : EnvironmentState → ℤ → EnvironmentState)
    (hall : ∀ kv ∈ data, ∃ q : ℚ, kv.2 = JVal.num q) :
    (applyDial data key st set).2 = false := by
  unfold applyDial
  cases hl : data.lookup key with
  | none => rfl
  | some v =>
      simp only []
      obtain ⟨k', hk'⟩ := lookup_pair_mem hl
      obtain ⟨q, hq⟩ := hall (k', v) hk'
      have hv : v = JVal.num q := hq
      rw [hv]
      rfl

theorem update_from_dict_no_raise (st : EnvironmentState)
    (data : List (String × JVal))
    (hall : ∀ kv ∈ data, ∃ q : ℚ, kv.2 = JVal.num q) :
    (update_from_dict st data).2 = false := by
  simp only [update_from_dict]
  have e1 := applyDial_no_raise data "noise_level" st setNoise hall
  rw [if_neg (by simp [e1])]
  have e2 := applyDial_no_raise data "crowd_density"
    (applyDial data "noise_level" st setNoise).1 setCrowd hall
  rw [if_neg (by simp [e2])]
  have e3 := applyDial_no_raise data "lighting_level"
    (applyDial data "crowd_density"
      (applyDial data "noise_level" st setNoise).1 setCrowd).1 setLight hall
  rw [if_neg (by simp [e3])]
  exact applyDial_no_raise data "visual_distractions" _ setVis hall

theorem update_from_dict_unrecognized (st : EnvironmentState)
    (data : List (String × JVal))
    (h1 : data.lookup "noise_level" = none)
    (h2 : data.lookup "crowd_density" = none)
    (h3 : data.lookup "lighting_level" = none)
    (h4 : data.lookup "visual_distractions" = none) :
    update_from_dict st data = (st, false) := by
  simp only [update_from_dict, applyDial, h1, h2, h3, h4]
  rfl

theorem applyDial_tp (data : List (String × JVal)) (key : String)
    (st : EnvironmentState) (set : EnvironmentState → ℤ → EnvironmentState)
    (hset2 : ∀ s n, (set s n).time_pressure = s.time_pressure) :
    (applyDial data key st set).1.time_pressure = st.time_pressure := by
  unfold applyDial
  cases data.lookup key with
  | none => rfl
  | some v =>
      simp only []
      cases clampDial v with
      | ok n => exact hset2 st n
      | error e => rfl

theorem update_from_dict_tp (st : EnvironmentState)
    (data : List (String × JVal)) :
    (update_from_dict st data).1.time_pressure = st.time_pressure := by
  simp only [update_from_dict]
  have A1 := applyDial_tp data "noise_level" st setNoise (fun s n => rfl)
  by_cases b1 : (applyDial data "noise_level" st setNoise).2 = true
  · rw [if_pos b1]
    exact A1
  · rw [if_neg b1]
    have A2 := applyDial_tp data "crowd_density"
      (applyDial data "noise_level" st setNoise).1 setCrowd (fun s n => rfl)
    by_cases b2 : (applyDial data "crowd_density"
        (applyDial data "noise_level" st setNoise).1 setCrowd).2 = true
    · rw [if_pos b2]
      exact A2.trans A1
    · rw [if_neg b2]
      have A3 := applyDial_tp data "lighting_level"
        (applyDial data "crowd_density"
          (applyDial data "noise_level" st setNoise).1 setCrowd).1 setLight
        (fun s n => rfl)
      by_cases b3 : (applyDial data "lighting_level"
          (applyDial data "crowd_density"
            (applyDial data "noise_level" st setNoise).1 setCrowd).1
          setLight).2 = true
      · rw [if_pos b3]
        exact (A3.trans A2).trans A1
      · rw [if_neg b3]
        have A4 := applyDial_tp data "visual_distractions"
          (applyDial data "lighting_level"
            (applyDial data "crowd_density"
              (applyDial data "noise_level" st setNoise).1 setCrowd).1
            setLight).1 setVis (fun s n => rfl)
        exact ((A4.trans A3).trans A2).trans A1

theorem process_message_time_pressure (st : ServerState)
    (mf face : FileState) (ts : String) (msg : InMsg) :
    (process_message st mf face ts msg).state.env.time_pressure
      = st.env.time_pressure := by
  cases msg with
  | nonJson => rfl
  | json v =>
      cases v with
      | null => rfl
      | bool b => rfl
      | num q => rfl
      | str s => rfl
      | arr xs => rfl
      | obj data =>
          simp only [process_message]
          split
          · rename_i t heq
            by_cases h1 : t = "env_update"
            · simp only [if_pos h1, handle_env_update]
              exact update_from_dict_tp st.env data
            · simp only [if_neg h1]
              by_cases h2 : t = "user_utterance"
              · simp only [if_pos h2, handle_user_utterance]
                split
                · rfl
                · rename_i u hps
                  by_cases hu : u = ""
                  · rw [if_pos hu]
                  · rw [if_neg hu]
              · simp only [if_neg h2]
                by_cases h3 : t = "item_selected"
                · simp only [if_pos h3, handle_item_selected]
                  split
                  · rfl
                  · rfl
                · simp only [if_neg h3]
          · rfl

/-- C8: after any sequence of environment-update payloads every
client dial is clamped into [0, 10] and `time_pressure` is still 0;
no client message of any kind alters `time_pressure`; numeric payloads
are never rejected (no raise, however far out of range); and payloads
with only unrecognized fields leave the state untouched without
error. -/
theorem env_dials_clamped_and_time_pressure_fixed :
    (∀ (updates : List (List (String × JVal))),
        EnvInv (applyEnvUpdates updates) ∧
        (applyEnvUpdates updates).time_pressure = 0) ∧
    (∀ (st : ServerState) (mf face : FileState) (ts : String) (msg : InMsg),
        (process_message st mf face ts msg).state.env.time_pressure
          = st.env.time_pressure) ∧
    (∀ (st : EnvironmentState) (data : List (String × JVal)),
        (∀ kv ∈ data, ∃ q : ℚ, kv.2 = JVal.num q) →
        (update_from_dict st data).2 = false) ∧
    (∀ (st : EnvironmentState) (data : List (String × JVal)),
        data.lookup "noise_level" = none →
        data.lookup "crowd_density" = none →
        data.lookup "lighting_level" = none →
        data.lookup "visual_distractions" = none →
        update_from_dict st data = (st, false)) := by
  have main : ∀ (updates : List (List (String × JVal)))
      (st : EnvironmentState), EnvInv st →
      EnvInv (updates.foldl (fun s d => (update_from_dict s d).1) st) ∧
      (updates.foldl (fun s d => (update_from_dict s d).1) st).time_pressure
        = st.time_pressure := by
    intro updates
    induction updates with
    | nil => exact fun st h => ⟨h, rfl⟩
    | cons d rest ih =>
        intro st h
        have h1 := update_from_dict_env st d h
        have h2 := ih (update_from_dict st d).1 h1.1
        exact ⟨by simpa only [List.foldl_cons] using h2.1,
               by rw [List.foldl_cons]; exact h2.2.trans h1.2⟩
  refine ⟨?_, process_message_time_pressure, update_from_dict_no_raise,
          update_from_dict_unrecognized⟩
  intro updates
  have h0 : EnvInv envInit := by
    refine ⟨?_, ?_, ?_, ?_, ?_, ?_, ?_, ?_⟩ <;> decide
  exact (main updates envInit h0).imp id (fun h => h)

/-- C8 witness: a wildly out-of-range numeric update is not rejected,
and an unrecognized-field update is a no-op. -/
theorem env_dials_witness :
    ((update_from_dict envInit [("noise_level", JVal.num 99)]).2 = false) ∧
    (update_from_dict envInit [("foo", JVal.num 1)] = (envInit, false)) :=
  ⟨env_dials_clamped_and_time_pressure_fixed.2.2.1 envInit
      [("noise_level", JVal.num 99)]
      (fun kv hkv => ⟨99, by rcases List.mem_singleton.mp hkv with rfl; rfl⟩),
   env_dials_clamped_and_time_pressure_fixed.2.2.2 envInit
      [("foo", JVal.num 1)] rfl rfl rfl rfl⟩

end Negotiation
